import Mathlib

/-!
Shallow embedding of the AINEX rust engine
(src/core-logic/rust-engine/src/main.rs) and proofs about the claims of
its specification.

The whole program is one file: `main` loads configuration, connects to a
websocket provider, binds the ApexFlashAggregator contract, subscribes to
blocks and runs a loop that prints each block and fires a mock trigger
(`block.timestamp % 100 < 5`) that only prints; the executeArbitrage call
is commented out in the source.  The embedding below models

  * the block header fields the loop reads (`Block`),
  * the observable effects of one loop iteration (`processBlock`) and of
    the whole loop over a finite prefix of the stream (`runLoop`,
    `runEngine`) - `Option`/`Except` model the unwrap panic and the
    final `Ok(())`,
  * the startup sequence as a trace of actions (`startupTrace`),
  * and, modelled from the spec because the repository has no Transaction
    Submitter code, the nonce counter of the submitter (`submit`,
    `submitSeq`).

The effect and action alphabets include signals the specification talks
about (transaction submission, reorg and gap signals, an owner call, a
ConnectionLost error) so that their absence from the embedded code is a
statable property; the definitions translated from the source never emit
them, exactly as the source never performs them.
-/

namespace Ainex

/-- A block header as delivered by the subscription stream.  The source
reads `block.number` (an optional field in the ethers block type, absent
for pending blocks) and `block.timestamp`; `hash` stands in for the many
remaining header fields the loop never reads. -/
structure Block where
  number : Option Nat
  timestamp : Nat
  hash : Nat
  deriving DecidableEq

/-- Observable effects of one iteration of the event loop.  The loop in
the source only ever prints (the block line and the opportunity line).
The constructors `submitTx`, `reorgSignal` and `possibleGap` are the
signals the specification requires; they are part of the alphabet so that
their absence is expressible, and no definition embedded from the source
produces them. -/
inductive Effect where
  | printBlock (number timestamp : Nat)
  | printOpportunity
  | submitTx
  | reorgSignal (prev cur : Nat)
  | possibleGap (lo hi : Nat)
  deriving DecidableEq

/-- The mock execution trigger of the source, line 48:
`if block.timestamp % 100 < 5`. -/
def opportunityDetected (b : Block) : Bool :=
  b.timestamp % 100 < 5

/-- One iteration of the event loop, source lines 40 to 55: print the
block line (panicking, modelled as `none`, when `block.number` is absent,
because of the `unwrap`), then, when the mock trigger fires, print the
opportunity line.  Nothing else happens: the executeArbitrage submission
is commented out in the source. -/
def processBlock (b : Block) : Option (List Effect) :=
  match b.number with
  | none => none
  | some n =>
      some (Effect.printBlock n b.timestamp ::
        (if opportunityDetected b then [Effect.printOpportunity] else []))

/-- The event loop over a finite prefix of the block stream, in arrival
order; `none` models a panic in some iteration. -/
def runLoop : List Block → Option (List Effect)
  | [] => some []
  | b :: rest =>
      match processBlock b with
      | none => none
      | some es =>
          match runLoop rest with
          | none => none
          | some rest2 => some (es ++ rest2)

/-- Process-level errors.  `panicMissingNumber` is the unwrap panic the
source can actually hit; `connectionLost` is the error the specification
taxonomy demands on connection loss and is never produced by the code. -/
inductive EngineError where
  | panicMissingNumber
  | connectionLost
  deriving DecidableEq

/-- The result of `main` once the subscription stream has ended: the
source falls out of the `while let` loop and returns `Ok(())`
(line 57), so a finished stream yields `Except.ok` with the effects
produced, and only the unwrap panic yields an error. -/
def runEngine (blocks : List Block) : Except EngineError (List Effect) :=
  match runLoop blocks with
  | none => Except.error EngineError.panicMissingNumber
  | some es => Except.ok es

/-- The deployed aggregator address constant of the source, line 9. -/
def AGGREGATOR_ADDRESS : String := "0x82BBAA3B0982D88741B275aE1752DB85CAfe3c65"

/-- The endpoint resolution of the source, line 26:
`env::var("ETH_RPC_URL").unwrap_or_else(|_| "ws://localhost:8545".to_string())`.
The environment is a partial map from variable names to values. -/
def rpcUrl (env : String → Option String) : String :=
  (env "ETH_RPC_URL").getD "ws://localhost:8545"

/-- Actions of the startup sequence.  `ownerCall` is the read-only owner
accessor call the specification describes for startup sanity-checking; it
is in the alphabet so that its absence is expressible, and the embedded
startup sequence never performs it. -/
inductive StartupAction where
  | loadDotenv
  | initLogger
  | envRead (key : String)
  | connect (url : String)
  | parseAddress (addr : String)
  | bindContract (addr : String)
  | subscribeBlocks
  | ownerCall
  deriving DecidableEq

/-- The startup sequence of `main` before the event loop, source lines
21 to 38, in order: load dotenv, init the logger, read ETH_RPC_URL once,
connect to the resolved endpoint, parse the aggregator address, bind the
contract, subscribe to blocks.  No owner call appears anywhere. -/
def startupTrace (env : String → Option String) : List StartupAction :=
  [ StartupAction.loadDotenv,
    StartupAction.initLogger,
    StartupAction.envRead "ETH_RPC_URL",
    StartupAction.connect (rpcUrl env),
    StartupAction.parseAddress AGGREGATOR_ADDRESS,
    StartupAction.bindContract AGGREGATOR_ADDRESS,
    StartupAction.subscribeBlocks ]

/-- Recognizes the transaction-submission effect. -/
def Effect.isSubmit : Effect → Bool
  | Effect.submitTx => true
  | _ => false

/-- Recognizes the ordering-anomaly signals (reorg and gap). -/
def Effect.isAnomaly : Effect → Bool
  | Effect.reorgSignal _ _ => true
  | Effect.possibleGap _ _ => true
  | _ => false

/-- Recognizes the owner accessor call. -/
def StartupAction.isOwnerCall : StartupAction → Bool
  | StartupAction.ownerCall => true
  | _ => false

/-- Recognizes a read of the ETH_RPC_URL environment variable. -/
def StartupAction.isEnvReadRpc : StartupAction → Bool
  | StartupAction.envRead k => k == "ETH_RPC_URL"
  | _ => false

/-- Modelled from the spec: the repository contains no Transaction
Submitter; src only holds the event loop, and the nonce counter exists
only in the specification.  AccountNonceState is the process-wide counter
pair owned by the Transaction Submitter. -/
structure AccountNonceState where
  nextNonce : Nat
  lastConfirmedNonce : Nat
  deriving DecidableEq

/-- Modelled from the spec: `submit(intent)` assigns the next nonce from
AccountNonceState and increments `nextNonce` exactly once, never
decrementing it.  Returns the assigned nonce and the new state. -/
def submit (s : AccountNonceState) : Nat × AccountNonceState :=
  (s.nextNonce, { s with nextNonce := s.nextNonce + 1 })

/-- Modelled from the spec: a sequence of n submit calls issued in order
by the process, returning the assigned nonces in order and the final
state. -/
def submitSeq (s : AccountNonceState) : Nat → List Nat × AccountNonceState
  | 0 => ([], s)
  | n + 1 =>
      let r := submit s
      let rest := submitSeq r.2 n
      (r.1 :: rest.1, rest.2)

theorem processBlock_no_anomaly (b : Block) :
    ((processBlock b).getD []).countP Effect.isAnomaly = 0 := by
  cases h : b.number with
  | none => simp [processBlock, h]
  | some n =>
      by_cases hd : opportunityDetected b <;>
        simp [processBlock, h, hd, Effect.isAnomaly]

theorem runLoop_isSome (blocks : List Block)
    (h : ∀ b ∈ blocks, (Block.number b).isSome) :
    (runLoop blocks).isSome := by
  induction blocks with
  | nil => simp [runLoop]
  | cons b rest ih =>
      have hb := h b (List.mem_cons_self b rest)
      have hrest := ih (fun x hx => h x (List.mem_cons_of_mem b hx))
      cases hn : b.number with
      | none => rw [hn] at hb; simp at hb
      | some n =>
          cases hr : runLoop rest with
          | none => rw [hr] at hrest; simp at hrest
          | some es => simp [runLoop, processBlock, hn, hr]

/-- Claim C1: the claim says every decision to act submits exactly one
transaction through executeArbitrage.  The code violates it: at the block
with number 100 and timestamp 0 the mock trigger fires (a decision to
act), yet the effects of the iteration contain zero transaction
submissions, because the executeArbitrage call is commented out. -/
theorem decision_without_submission :
    opportunityDetected ⟨some 100, 0, 0⟩ = true ∧
    ((processBlock ⟨some 100, 0, 0⟩).getD []).countP Effect.isSubmit = 0 := by
  decide

/-- Claim C2: the claim says a candidate is emitted only when net profit
exceeds the threshold and slippage is within bound, and on nothing else.
The code violates it: the decision is `timestamp % 100 < 5`, computed
from the timestamp alone.  Two blocks identical except for the timestamp
get different decisions, with no profit or slippage input anywhere. -/
theorem detection_ignores_profit :
    opportunityDetected ⟨some 7, 3, 0⟩ = true ∧
    opportunityDetected ⟨some 7, 50, 0⟩ = false := by
  decide

/-- Claim C3, counterexample: on the stream delivering block number 5 and
then block number 3 (a lower number after a higher one, the reorg anomaly
of the claim), the loop processes both blocks normally and its output
contains no reorg or gap signal, so the anomaly is silently absorbed. -/
theorem reorg_not_surfaced :
    runLoop [⟨some 5, 10, 0⟩, ⟨some 3, 11, 0⟩] =
      some [Effect.printBlock 5 10, Effect.printBlock 3 11] ∧
    ((runLoop [⟨some 5, 10, 0⟩, ⟨some 3, 11, 0⟩]).getD []).countP
      Effect.isAnomaly = 0 := by
  decide

/-- Claim C3, amended: the event-processing loop performs no ordering
check on block numbers at all; on every stream of blocks its output
contains no reorg signal and no PossibleGap signal, so every ordering
anomaly is silently absorbed. -/
theorem loop_absorbs_anomalies (blocks : List Block) :
    ((runLoop blocks).getD []).countP Effect.isAnomaly = 0 := by
  induction blocks with
  | nil => simp [runLoop]
  | cons b rest ih =>
      cases hb : processBlock b with
      | none => simp [runLoop, hb]
      | some es =>
          cases hr : runLoop rest with
          | none => simp [runLoop, hb, hr]
          | some rest2 =>
              have h1 : es.countP Effect.isAnomaly = 0 := by
                have := processBlock_no_anomaly b
                rwa [hb] at this
              have h2 : rest2.countP Effect.isAnomaly = 0 := by
                rwa [hr] at ih
              simp [runLoop, hb, hr, List.countP_append, h1, h2]

/-- Claim C4 (modelled from the spec, no submitter code exists in src):
for a sequence of n submit calls issued in order from state s, the
assigned nonces are exactly nextNonce, nextNonce + 1, ... (strictly
increasing and gapless, so nonce(i_k) = nonce(i_1) + (k - 1)), and
nextNonce is incremented exactly once per call, never decremented:
after n calls it is the initial value plus n. -/
theorem nonce_gapless (s : AccountNonceState) (n : Nat) :
    (submitSeq s n).1 = List.range' s.nextNonce n ∧
    (submitSeq s n).2.nextNonce = s.nextNonce + n ∧
    (∀ k, k < n → (submitSeq s n).1.getD k 0 = s.nextNonce + k) := by
  induction n generalizing s with
  | zero => exact ⟨rfl, rfl, fun k hk => absurd hk (Nat.not_lt_zero k)⟩
  | succ n ih =>
      obtain ⟨h1, h2, -⟩ := ih { s with nextNonce := s.nextNonce + 1 }
      have hlist : (submitSeq s (n + 1)).1 = List.range' s.nextNonce (n + 1) := by
        simp [submitSeq, submit, h1, List.range'_succ]
      refine ⟨hlist, ?_, ?_⟩
      · simp [submitSeq, submit, h2]
        omega
      · intro k hk
        rw [hlist]
        have hlen : k < (List.range' s.nextNonce (n + 1)).length := by
          simpa [List.length_range'] using hk
        rw [List.getD_eq_getElem _ _ hlen, List.getElem_range']
        omega

/-- Claim C5, counterexample: with the environment in which no variable
is set, the startup sequence of the program performs no call of the
read-only owner accessor: the trace holds zero owner calls, so no
owner sanity check happens before the event loop. -/
theorem no_owner_check_at_startup :
    (startupTrace (fun _ => none)).countP StartupAction.isOwnerCall = 0 := by
  decide

/-- Claim C5, amended: at startup the program constructs the typed
contract binding, whose interface declares executeArbitrage and the
read-only owner accessor, but for every environment the startup sequence
never calls the owner accessor: no sanity check of the configured address
against the deployed contract owner is performed. -/
theorem startup_never_calls_owner (env : String → Option String) :
    (startupTrace env).countP StartupAction.isOwnerCall = 0 := by
  rfl

/-- Claim C6: the detection step of the loop is a deterministic function
of the block snapshot: two blocks with the same number and the same
timestamp (whatever their other header fields) get the same decision and
the same processing output, so re-running detection on an unchanged
snapshot yields the same result. -/
theorem detection_deterministic (b b' : Block)
    (hn : b.number = b'.number) (ht : b.timestamp = b'.timestamp) :
    opportunityDetected b = opportunityDetected b' ∧
    processBlock b = processBlock b' := by
  have hd : opportunityDetected b = opportunityDetected b' := by
    simp [opportunityDetected, ht]
  refine ⟨hd, ?_⟩
  simp only [processBlock, hn, ht, hd]

/-- Witness for C6: two concrete blocks sharing number 1 and timestamp 3
but with different hashes get the same decision and the same output. -/
theorem detection_deterministic_witness :
    opportunityDetected ⟨some 1, 3, 0⟩ = opportunityDetected ⟨some 1, 3, 42⟩ ∧
    processBlock ⟨some 1, 3, 0⟩ = processBlock ⟨some 1, 3, 42⟩ :=
  detection_deterministic ⟨some 1, 3, 0⟩ ⟨some 1, 3, 42⟩ rfl rfl

/-- Claim C8, counterexample: when the subscription stream ends at once
(the connection is gone and delivers nothing), the program leaves the
loop and terminates successfully with ok, and in particular does not fail
with the ConnectionLost error the claim requires. -/
theorem connection_loss_not_signalled :
    runEngine [] = Except.ok [] ∧
    runEngine [] ≠ Except.error EngineError.connectionLost := by
  refine ⟨rfl, ?_⟩
  intro h
  exact Except.noConfusion h

/-- Claim C8, amended: whenever the block stream ends, the program exits
the event loop and terminates successfully, returning ok with the effects
produced, provided every delivered block carried a number (otherwise the
unwrap panic, not ConnectionLost, is the outcome). -/
theorem stream_end_terminates_ok (blocks : List Block)
    (h : ∀ b ∈ blocks, (Block.number b).isSome) :
    ∃ es, runEngine blocks = Except.ok es := by
  have h2 := runLoop_isSome blocks h
  cases hr : runLoop blocks with
  | none => rw [hr] at h2; simp at h2
  | some es => exact ⟨es, by simp [runEngine, hr]⟩

/-- Witness for C8: on the one-block stream whose block has number 1, the
program terminates with ok. -/
theorem stream_end_terminates_ok_witness :
    ∃ es, runEngine [⟨some 1, 7, 0⟩] = Except.ok es :=
  stream_end_terminates_ok [⟨some 1, 7, 0⟩] (by decide)

/-- Claim C9: a block whose number field is absent makes the loop panic
on the unwrap (modelled as none), and conversely the iteration is total
on every block that carries a number. -/
theorem missing_number_panics :
    (∀ b : Block, Block.number b = none → processBlock b = none) ∧
    (∀ b : Block, (Block.number b).isSome → (processBlock b).isSome) := by
  constructor
  · intro b h
    simp [processBlock, h]
  · intro b h
    cases hn : b.number with
    | none => rw [hn] at h; simp at h
    | some n => simp [processBlock, hn]

/-- Witness for C9: the block without a number panics; the block with
number 2 is processed. -/
theorem missing_number_panics_witness :
    processBlock ⟨none, 5, 0⟩ = none ∧ (processBlock ⟨some 2, 5, 0⟩).isSome :=
  ⟨missing_number_panics.1 ⟨none, 5, 0⟩ rfl,
   missing_number_panics.2 ⟨some 2, 5, 0⟩ rfl⟩

/-- Claim C10: if ETH_RPC_URL is unset the program connects to
`ws://localhost:8545`; if it is set the program connects to exactly its
value; and the startup sequence reads the variable exactly once. -/
theorem rpc_url_resolution :
    (∀ env : String → Option String, env "ETH_RPC_URL" = none →
        rpcUrl env = "ws://localhost:8545") ∧
    (∀ (env : String → Option String) (v : String), env "ETH_RPC_URL" = some v →
        rpcUrl env = v) ∧
    (∀ env : String → Option String,
        (startupTrace env).countP StartupAction.isEnvReadRpc = 1) := by
  refine ⟨?_, ?_, ?_⟩
  · intro env h
    simp [rpcUrl, h]
  · intro env v h
    simp [rpcUrl, h]
  · intro env
    rfl

/-- Witness for C10: with the empty environment the endpoint is the
default, with an environment binding ETH_RPC_URL the endpoint is the
bound value. -/
theorem rpc_url_resolution_witness :
    rpcUrl (fun _ => none) = "ws://localhost:8545" ∧
    rpcUrl (fun _ => some "wss://node.example") = "wss://node.example" :=
  ⟨rpc_url_resolution.1 (fun _ => none) rfl,
   rpc_url_resolution.2.1 (fun _ => some "wss://node.example")
     "wss://node.example" rfl⟩

end Ainex
